import Mathlib

/-!
Verification of the Geo Data Dashboard core (a React/TypeScript dashboard:
paginated, sortable, filterable project table synchronized with a map view).

This file gives a shallow embedding of the parts of the source that carry the
design substance, and proves or refutes the specified properties about them:

* `src/api/mockApi.ts` — the record store query `mockApi.fetchProjects`
  (filter, sort, paginate).  JS numbers used as page indices, counts and
  coordinates are modelled as `Int`; JS strings as Lean `String`;
  `localeCompare` as a lexicographic three-way comparison (any strict total
  collation supports the order-theoretic facts proved here); the in-place
  `Array.prototype.sort` as a stable merge sort; the simulated network delay
  is dropped (it has no effect on the returned value).
* `src/hooks/useDataTable.ts` — the query state manager: its state record,
  its setters, and `loadData` modelled as an event semantics (the code before
  the `await` and the resumption after it are each one atomic event of the
  single-threaded UI event loop).
* `src/components/Dashboard.tsx` — selection handlers and the dependency
  tuple of the debounced reload effect.
-/

/-- The closed status set from `types/index.ts`:
`'Active' | 'Completed' | 'Pending' | 'On Hold'`. -/
inductive Status where
  | active
  | completed
  | pending
  | onHold
  deriving DecidableEq

/-- The JS string literal a status value is. -/
def Status.str : Status → String
  | .active => "Active"
  | .completed => "Completed"
  | .pending => "Pending"
  | .onHold => "On Hold"

/-- `GeoProject` from `src/types/index.ts`.  Numeric JS fields are `Int`,
optional fields are `Option`. -/
structure GeoProject where
  id : String
  projectName : String
  latitude : Int
  longitude : Int
  status : Status
  lastUpdated : String
  description : Option String := none
  budget : Option Int := none
  progress : Option Int := none
  deriving DecidableEq

/-- `PaginationState` from `src/types/index.ts`. -/
structure PaginationState where
  pageNumber : Int
  pageSize : Int
  totalCount : Int
  deriving DecidableEq

/-- The sortable fields of a record: the always-present fields of
`GeoProject` (the table UI sorts by name, coordinates, status and date;
optional fields are never used as sort keys). -/
inductive SortField where
  | id
  | projectName
  | latitude
  | longitude
  | status
  | lastUpdated
  deriving DecidableEq

/-- `'asc' | 'desc'`. -/
inductive SortOrder where
  | asc
  | desc
  deriving DecidableEq

/-- `SortState` from `src/types/index.ts`. -/
structure SortState where
  field : SortField
  order : SortOrder
  deriving DecidableEq

/-- `FilterState` from `src/types/index.ts`: free-text name filter and a
status filter string. -/
structure FilterState where
  projectName : String
  status : String
  deriving DecidableEq

/-- `ApiResponse` from `src/types/index.ts`. -/
structure ApiResponse where
  data : List GeoProject
  pagination : PaginationState
  deriving DecidableEq

/-- JS `hay.includes(needle)` on strings: substring containment. -/
def jsIncludes (hay needle : String) : Bool :=
  decide (List.IsInfix needle.toList hay.toList)

/-- The filter stage of `mockApi.fetchProjects` (`src/api/mockApi.ts`).
Guards mirror JS truthiness: the name filter runs only when
`filters.projectName` is a non-empty string, the status filter only when
`filters.status` is non-empty and not the sentinel `All`. -/
def applyFilters (filters : Option FilterState) (l : List GeoProject) : List GeoProject :=
  match filters with
  | none => l
  | some f =>
    let l1 := if f.projectName ≠ "" then
        l.filter (fun p => jsIncludes p.projectName.toLower f.projectName.toLower)
      else l
    if f.status ≠ "" ∧ f.status ≠ "All" then
      l1.filter (fun p => p.status.str == f.status)
    else l1

/-- Lexicographic three-way comparison of character lists; the model of
`String.prototype.localeCompare` (locale collation details are outside the
embedding: the properties proved below hold for any strict total order). -/
def compareStr : List Char → List Char → Int
  | [], [] => 0
  | [], _ :: _ => -1
  | _ :: _, [] => 1
  | a :: as, b :: bs => if a < b then -1 else if b < a then 1 else compareStr as bs

/-- The ascending three-way comparison on a given field, per the comparator
body in `mockApi.fetchProjects`: string fields via `localeCompare`, numeric
fields via subtraction. -/
def ascCompare (sf : SortField) (a b : GeoProject) : Int :=
  match sf with
  | .id => compareStr a.id.toList b.id.toList
  | .projectName => compareStr a.projectName.toList b.projectName.toList
  | .latitude => a.latitude - b.latitude
  | .longitude => a.longitude - b.longitude
  | .status => compareStr a.status.str.toList b.status.str.toList
  | .lastUpdated => compareStr a.lastUpdated.toList b.lastUpdated.toList

/-- The full comparator passed to `filtered.sort` in `mockApi.fetchProjects`:
for `desc` the two operands are swapped (`bVal.localeCompare(aVal)`,
`bVal - aVal`). -/
def sortComparator (sf : SortField) (o : SortOrder) (a b : GeoProject) : Int :=
  match o with
  | .asc => ascCompare sf a b
  | .desc => ascCompare sf b a

/-- `Array.prototype.sort(c)` modelled as a stable sort that places `a`
no later than `b` whenever `c a b ≤ 0`. -/
def jsSort (c : GeoProject → GeoProject → Int) (l : List GeoProject) : List GeoProject :=
  l.mergeSort (fun a b => decide (c a b ≤ 0))

/-- The sort stage of `mockApi.fetchProjects`. -/
def sortProjects (sf : SortField) (o : SortOrder) (l : List GeoProject) : List GeoProject :=
  jsSort (sortComparator sf o) l

/-- ECMAScript `Array.prototype.slice(s, e)` with both indices supplied:
negative indices count from the end, both are clamped to `[0, length]`. -/
def jsSlice (l : List GeoProject) (s e : Int) : List GeoProject :=
  let len : Int := l.length
  let s1 : Int := if s < 0 then max (len + s) 0 else min s len
  let e1 : Int := if e < 0 then max (len + e) 0 else min e len
  (l.drop s1.toNat).take (e1 - s1).toNat

/-- `mockApi.fetchProjects` (`src/api/mockApi.ts`), with the in-memory store
`allProjects` passed explicitly.  The simulated 300 ms delay is dropped; the
returned value is computed exactly as in the source: copy the store, filter,
sort, slice `[(pageNumber-1)*pageSize, (pageNumber-1)*pageSize + pageSize)`,
and report the filtered length as `totalCount`. -/
def fetchProjects (store : List GeoProject) (pageNumber pageSize : Int)
    (sortField : SortField) (sortOrder : SortOrder) (filters : Option FilterState) :
    ApiResponse :=
  let filtered := sortProjects sortField sortOrder (applyFilters filters store)
  let startIndex := (pageNumber - 1) * pageSize
  let endIndex := startIndex + pageSize
  let paginatedData := jsSlice filtered startIndex endIndex
  { data := paginatedData
    pagination :=
      { pageNumber := pageNumber
        pageSize := pageSize
        totalCount := (filtered.length : Int) } }

/-- A heap of JS arrays of records plus an allocation counter; array
references are modelled as natural numbers indexing into the heap. -/
structure Heap where
  mem : Nat → List GeoProject
  next : Nat

/-- Allocate a fresh array holding `v`; returns its reference. -/
def Heap.alloc (h : Heap) (v : List GeoProject) : Nat × Heap :=
  (h.next, ⟨fun r => if r = h.next then v else h.mem r, h.next + 1⟩)

/-- Overwrite the array behind reference `r` (in-place mutation). -/
def Heap.write (h : Heap) (r : Nat) (v : List GeoProject) : Heap :=
  ⟨fun q => if q = r then v else h.mem q, h.next⟩

/-- `mockApi.fetchProjects` with the JS array operations made explicit
against the heap: the spread `[...allProjects]` allocates a fresh copy of the
store array, each `Array.prototype.filter` allocates a fresh array, and
`Array.prototype.sort` mutates its receiver in place.  The store itself is
only ever read. -/
def fetchProjectsHeap (h : Heap) (storeRef : Nat) (pageNumber pageSize : Int)
    (sf : SortField) (so : SortOrder) (filters : Option FilterState) :
    ApiResponse × Heap :=
  let a0 := h.alloc (h.mem storeRef)
  let a1 :=
    match filters with
    | none => a0
    | some f =>
      let aN := if f.projectName ≠ "" then
          a0.2.alloc ((a0.2.mem a0.1).filter
            (fun p => jsIncludes p.projectName.toLower f.projectName.toLower))
        else a0
      if f.status ≠ "" ∧ f.status ≠ "All" then
        aN.2.alloc ((aN.2.mem aN.1).filter (fun p => p.status.str == f.status))
      else aN
  let h2 := a1.2.write a1.1 (jsSort (sortComparator sf so) (a1.2.mem a1.1))
  let filtered := h2.mem a1.1
  let startIndex := (pageNumber - 1) * pageSize
  let endIndex := startIndex + pageSize
  ({ data := jsSlice filtered startIndex endIndex
     pagination :=
       { pageNumber := pageNumber
         pageSize := pageSize
         totalCount := (filtered.length : Int) } },
   h2)

/-- The state owned by the `useDataTable` hook (`useDataTable.ts`). -/
structure DataTableState where
  projects : List GeoProject
  pagination : PaginationState
  sort : SortState
  filters : FilterState
  isLoading : Bool
  error : Option String
  deriving DecidableEq

/-- The `useState` defaults in `useDataTable`. -/
def initialDataTableState : DataTableState :=
  { projects := []
    pagination := { pageNumber := 1, pageSize := 50, totalCount := 0 }
    sort := { field := .projectName, order := .asc }
    filters := { projectName := "", status := "All" }
    isLoading := false
    error := none }

/-- `setPageNumber` from `useDataTable`: stores the argument as the page
number, touching nothing else. -/
def setPageNumber (page : Int) (s : DataTableState) : DataTableState :=
  { s with pagination := { s.pagination with pageNumber := page } }

/-- `setPageSize` from `useDataTable`: stores the argument as the page size
and resets the page number to 1. -/
def setPageSize (size : Int) (s : DataTableState) : DataTableState :=
  { s with pagination := { s.pagination with pageNumber := 1, pageSize := size } }

/-- `setSortState` from `useDataTable`: replaces the sort state and resets
the page number to 1. -/
def setSortState (f : SortField) (o : SortOrder) (s : DataTableState) : DataTableState :=
  { s with sort := { field := f, order := o }
           pagination := { s.pagination with pageNumber := 1 } }

/-- `setFiltersState` from `useDataTable`: replaces the filter state and
resets the page number to 1. -/
def setFiltersState (newFilters : FilterState) (s : DataTableState) : DataTableState :=
  { s with filters := newFilters
           pagination := { s.pagination with pageNumber := 1 } }

/-- A JS value thrown by the query operation: either an `Error` carrying a
message, or any other value. -/
inductive JsError where
  | error (message : String)
  | nonError
  deriving DecidableEq

/-- The message `loadData` derives from a caught value:
`err instanceof Error ? err.message : 'Failed to load data'`. -/
def jsErrorMessage : JsError → String
  | .error m => m
  | .nonError => "Failed to load data"

/-- Resolution of one `fetchFn` call. -/
inductive FetchOutcome where
  | ok (r : ApiResponse)
  | thrown (e : JsError)
  deriving DecidableEq

/-- One atomic event-loop segment of a `loadData` invocation
(`useDataTable.ts`): `start` is the synchronous prefix up to the `await`
(`setIsLoading(true); setError(null)`); `finish o` is the resumption after
the `await` (on success `setProjects`, `setPagination`; on a caught failure
`setError`; in both cases the `finally` runs `setIsLoading(false)`). -/
inductive LoadEvent where
  | start
  | finish (o : FetchOutcome)
  deriving DecidableEq

/-- Apply one `loadData` segment to the hook state.  This is read directly
off the body of `loadData`; overlapping invocations interleave their
segments on the single-threaded event loop. -/
def stepLoad (s : DataTableState) : LoadEvent → DataTableState
  | .start => { s with isLoading := true, error := none }
  | .finish (.ok r) =>
      { s with projects := r.data, pagination := r.pagination, isLoading := false }
  | .finish (.thrown e) =>
      { s with error := some (jsErrorMessage e), isLoading := false }

/-- Run a sequence of `loadData` segments in event-loop order. -/
def runLoadEvents (s : DataTableState) (es : List LoadEvent) : DataTableState :=
  es.foldl stepLoad s

/-- One complete, non-overlapped `loadData` invocation whose fetch resolved
with outcome `o`.  Total: a thrown fetch error is caught inside `loadData`
and becomes state, it never escapes. -/
def loadData (s : DataTableState) (o : FetchOutcome) : DataTableState :=
  runLoadEvents s [.start, .finish o]

/-- The state owned by `Dashboard` (`Dashboard.tsx`): the hook state plus
the selected project id. -/
structure DashboardState where
  dataTable : DataTableState
  selectedProjectId : Option String
  deriving DecidableEq

/-- `handleRowSelect` from `Dashboard.tsx`: store the clicked id as the
selection. -/
def handleRowSelect (projectId : String) (s : DashboardState) : DashboardState :=
  { s with selectedProjectId := some projectId }

/-- `handleMarkerClick` from `Dashboard.tsx`: look the id up in the current
page and store it as the selection only when found. -/
def handleMarkerClick (projectId : String) (s : DashboardState) : DashboardState :=
  match s.dataTable.projects.find? (fun p => p.id == projectId) with
  | some _ => { s with selectedProjectId := some projectId }
  | none => s

/-- The dependency tuple of the debounced reload effect in `Dashboard.tsx`
(`[pagination.pageNumber, pagination.pageSize, sort, filters, loadData]`,
the last being a stable callback): a reload is scheduled exactly when this
tuple changes. -/
def reloadEffectDeps (s : DashboardState) : Int × Int × SortState × FilterState :=
  (s.dataTable.pagination.pageNumber, s.dataTable.pagination.pageSize,
   s.dataTable.sort, s.dataTable.filters)

/-! ### Concrete fixtures used by counterexamples and witnesses -/

/-- A concrete record in the shape produced by `generateMockProjects`. -/
def sampleProject : GeoProject :=
  { id := "IND-000001"
    projectName := "Delhi IT Project 1"
    latitude := 28
    longitude := 77
    status := .active
    lastUpdated := "2025-01-01" }

/-- A second concrete record with a distinct name. -/
def sampleProject2 : GeoProject :=
  { id := "IND-000002"
    projectName := "Mumbai Finance Project 2"
    latitude := 19
    longitude := 72
    status := .completed
    lastUpdated := "2025-02-01" }

/-- A one-record successful response. -/
def responseA : ApiResponse :=
  { data := [sampleProject]
    pagination := { pageNumber := 1, pageSize := 50, totalCount := 1 } }

/-- An empty successful response, distinct from `responseA`. -/
def responseB : ApiResponse :=
  { data := []
    pagination := { pageNumber := 1, pageSize := 50, totalCount := 0 } }

/-! ### C1 — stale-response guard -/

/-- C1: the spec demands a stale-response guard for `loadData`, but the code
applies whatever response resolves, unconditionally.  Failing input: reload A
starts, reload B starts before A resolves, B resolves with `responseB`, then
A resolves with `responseA`.  The final state holds the earlier-initiated
reload A response, not B as the specification requires. -/
theorem loadData_no_stale_guard :
    (runLoadEvents initialDataTableState
        [.start, .start, .finish (.ok responseB), .finish (.ok responseA)]).projects
      = responseA.data
    ∧ responseA.data ≠ responseB.data := by
  constructor
  · rfl
  · decide

/-! ### C2 — `setPageNumber` does not clamp -/

/-- C2 as stated is false: `setPageNumber 0` leaves page number `0`, not
`max 1 0 = 1`; no clamping happens inside the manager. -/
theorem setPageNumber_no_clamp_cex :
    (setPageNumber 0 initialDataTableState).pagination.pageNumber ≠ max 1 (0 : Int) := by
  decide

/-- C2 amended: `setPageNumber n` stores exactly `n` as the page number,
for every integer `n`, leaving page size, records, sort and filters alone;
clamping, where needed, is done by the caller (the Dashboard Previous button
passes `Math.max(1, pageNumber - 1)`). -/
theorem setPageNumber_sets_exact (n : Int) (s : DataTableState) :
    (setPageNumber n s).pagination.pageNumber = n
    ∧ (setPageNumber n s).pagination.pageSize = s.pagination.pageSize
    ∧ (setPageNumber n s).pagination.totalCount = s.pagination.totalCount
    ∧ (setPageNumber n s).projects = s.projects
    ∧ (setPageNumber n s).sort = s.sort
    ∧ (setPageNumber n s).filters = s.filters := by
  refine ⟨rfl, rfl, rfl, rfl, rfl, rfl⟩

/-! ### C3 — page number resets to 1 -/

/-- C3: changing page size, sort (any field and direction), or filters
always leaves the page number equal to 1. -/
theorem page_number_reset_invariant (s : DataTableState) (size : Int)
    (f : SortField) (o : SortOrder) (nf : FilterState) :
    (setPageSize size s).pagination.pageNumber = 1
    ∧ (setSortState f o s).pagination.pageNumber = 1
    ∧ (setFiltersState nf s).pagination.pageNumber = 1 := by
  refine ⟨rfl, rfl, rfl⟩

/-! ### C5 — `loadData` success and failure paths -/

/-- C5: a succeeding fetch replaces records and pagination with values of
the same response and ends with `isLoading = false`; a failing fetch leaves
records and pagination untouched, sets `error` to the derived message
(`err.message` for an `Error`, the fixed fallback text otherwise), and ends
with `isLoading = false`.  `loadData` is a total function of the outcome:
the thrown value is consumed by the `catch`, never re-raised. -/
theorem loadData_success_failure (s : DataTableState) (r : ApiResponse) (e : JsError) :
    (loadData s (.ok r)).projects = r.data
    ∧ (loadData s (.ok r)).pagination = r.pagination
    ∧ (loadData s (.ok r)).isLoading = false
    ∧ (loadData s (.thrown e)).projects = s.projects
    ∧ (loadData s (.thrown e)).pagination = s.pagination
    ∧ (loadData s (.thrown e)).error = some (jsErrorMessage e)
    ∧ (loadData s (.thrown e)).isLoading = false := by
  refine ⟨rfl, rfl, rfl, rfl, rfl, rfl, rfl⟩

/-! ### C6 — `setPageSize` does not validate -/

/-- C6 as stated is false: `setPageSize 30` on the default state (page size
50) stores 30 — neither a no-op nor a clamp to a supported value. -/
theorem setPageSize_no_validation_cex :
    ¬ ((setPageSize 30 initialDataTableState).pagination.pageSize
          = initialDataTableState.pagination.pageSize
        ∨ (setPageSize 30 initialDataTableState).pagination.pageSize
            ∈ ([25, 50, 100] : List Int)) := by
  decide

/-- C6 amended: `setPageSize s` stores exactly `s` for every integer `s`
(and resets the page number to 1); the manager performs no validation, and
an unsupported size held in state would be passed to the query operation by
the next reload.  Unsupported sizes are kept out only by the single call
site, the table rows-per-page select, whose options are 25, 50 and 100. -/
theorem setPageSize_sets_exact (size : Int) (s : DataTableState) :
    (setPageSize size s).pagination.pageSize = size
    ∧ (setPageSize size s).pagination.pageNumber = 1 := by
  refine ⟨rfl, rfl⟩

/-! ### C9 — selection handlers -/

/-- C9 as stated is false for the marker handler: clicking a marker whose id
is not among the current page records leaves the selection unchanged (the
handler first looks the id up in `projects`). -/
theorem handleMarkerClick_absent_cex :
    (handleMarkerClick "IND-000001"
        { dataTable := initialDataTableState, selectedProjectId := none }).selectedProjectId
      ≠ some "IND-000001" := by
  decide

/-- C9 amended: the row handler always stores the clicked id as the
selection; the marker handler stores it exactly when the id occurs in the
current page records, and otherwise leaves the selection unchanged.  Both
handlers leave the whole query state — in particular the reload effect
dependency tuple — unchanged, so no fetch is triggered by selection alone. -/
theorem selection_handlers_spec (s : DashboardState) (projectId : String) :
    (handleRowSelect projectId s).selectedProjectId = some projectId
    ∧ (handleRowSelect projectId s).dataTable = s.dataTable
    ∧ reloadEffectDeps (handleRowSelect projectId s) = reloadEffectDeps s
    ∧ (handleMarkerClick projectId s).dataTable = s.dataTable
    ∧ reloadEffectDeps (handleMarkerClick projectId s) = reloadEffectDeps s
    ∧ (handleMarkerClick projectId s).selectedProjectId
        = (if (s.dataTable.projects.find? (fun p => p.id == projectId)).isSome
            then some projectId else s.selectedProjectId) := by
  refine ⟨rfl, rfl, rfl, ?_, ?_, ?_⟩ <;>
    · unfold handleMarkerClick
      cases h : s.dataTable.projects.find? (fun p => p.id == projectId) <;>
        simp [h, reloadEffectDeps]

/-! ### C4 — page length arithmetic -/

/-- Length of a JS slice with non-negative bounds. -/
lemma jsSlice_length (l : List GeoProject) (s e : Int) (hs : 0 ≤ s) (he : s ≤ e) :
    ((jsSlice l s e).length : Int) = min (e - s) (max 0 ((l.length : Int) - s)) := by
  simp only [jsSlice]
  rw [if_neg (by omega), if_neg (by omega)]
  simp only [List.length_take, List.length_drop]
  omega

/-- C4: for every page number at least 1 and non-negative page size, the
returned page has length `min pageSize (max 0 (totalCount - (pageNumber-1) *
pageSize))`, the `totalCount` being the one in the same response; with a
filtered and sorted result of 5000 records and page size 50, page 1 is its
first 50 records, page 100 its records at indices 4950 to 4999, and page
101 the empty list (and `fetchProjects` is a total function: no error). -/
theorem fetchProjects_page_length :
    (∀ (store : List GeoProject) (pn ps : Int) (sf : SortField) (so : SortOrder)
        (fil : Option FilterState), 1 ≤ pn → 0 ≤ ps →
        ((fetchProjects store pn ps sf so fil).data.length : Int)
          = min ps (max 0 ((fetchProjects store pn ps sf so fil).pagination.totalCount
              - (pn - 1) * ps)))
    ∧ (∀ (store : List GeoProject) (sf : SortField) (so : SortOrder)
        (fil : Option FilterState),
        (sortProjects sf so (applyFilters fil store)).length = 5000 →
          (fetchProjects store 1 50 sf so fil).data
              = (sortProjects sf so (applyFilters fil store)).take 50
          ∧ (fetchProjects store 100 50 sf so fil).data
              = (sortProjects sf so (applyFilters fil store)).drop 4950
          ∧ (fetchProjects store 101 50 sf so fil).data = []) := by
  constructor
  · intro store pn ps sf so fil hpn hps
    have h1 : (fetchProjects store pn ps sf so fil).data
        = jsSlice (sortProjects sf so (applyFilters fil store))
            ((pn - 1) * ps) ((pn - 1) * ps + ps) := rfl
    have h2 : (fetchProjects store pn ps sf so fil).pagination.totalCount
        = ((sortProjects sf so (applyFilters fil store)).length : Int) := rfl
    rw [h1, h2, jsSlice_length _ _ _ (mul_nonneg (by omega) hps) (by omega)]
    omega
  · intro store sf so fil h
    refine ⟨?_, ?_, ?_⟩
    · have h1 : (fetchProjects store 1 50 sf so fil).data
          = jsSlice (sortProjects sf so (applyFilters fil store)) 0 50 := by
        show jsSlice _ (((1:Int) - 1) * 50) (((1:Int) - 1) * 50 + 50) = _
        norm_num
      rw [h1]
      simp only [jsSlice, h]
      norm_num
      omega
    · have h1 : (fetchProjects store 100 50 sf so fil).data
          = jsSlice (sortProjects sf so (applyFilters fil store)) 4950 5000 := by
        show jsSlice _ (((100:Int) - 1) * 50) (((100:Int) - 1) * 50 + 50) = _
        norm_num
      rw [h1]
      simp only [jsSlice, h]
      norm_num
      refine List.take_of_length_le ?_
      rw [List.length_drop, h]
      omega
    · have h1 : (fetchProjects store 101 50 sf so fil).data
          = jsSlice (sortProjects sf so (applyFilters fil store)) 5000 5050 := by
        show jsSlice _ (((101:Int) - 1) * 50) (((101:Int) - 1) * 50 + 50) = _
        norm_num
      rw [h1]
      simp only [jsSlice, h]
      norm_num

/-- Witness for C4 at concrete inputs: a one-record store on page 1, and a
5000-record store (the generated store size) on page 101. -/
theorem fetchProjects_page_length_witness :
    (((fetchProjects [sampleProject] 1 50 .projectName .asc none).data.length : Int)
        = min 50 (max 0 ((fetchProjects [sampleProject] 1 50 .projectName
            .asc none).pagination.totalCount - (1 - 1) * 50)))
    ∧ (sortProjects .projectName .asc
          (applyFilters none (List.replicate 5000 sampleProject))).length = 5000
    ∧ (fetchProjects (List.replicate 5000 sampleProject) 101 50 .projectName
          .asc none).data = [] := by
  have hlen : (sortProjects .projectName .asc
      (applyFilters none (List.replicate 5000 sampleProject))).length = 5000 := by
    show ((List.replicate 5000 sampleProject).mergeSort _).length = 5000
    rw [(List.mergeSort_perm (List.replicate 5000 sampleProject) _).length_eq,
      List.length_replicate]
  exact ⟨fetchProjects_page_length.1 [sampleProject] 1 50 .projectName .asc none
      (by norm_num) (by norm_num),
    hlen,
    (fetchProjects_page_length.2 (List.replicate 5000 sampleProject) .projectName
        .asc none hlen).2.2⟩

/-! ### C7 — filter semantics -/

/-- C7 as stated is false at the empty status string: a status filter value
of `""` differs from the sentinel `All`, yet the code (JS truthiness) skips
status filtering for it, returning records whose status is not `""`. -/
theorem applyFilters_empty_status_cex :
    applyFilters (some { projectName := "", status := "" }) [sampleProject]
      ≠ List.filter (fun p => p.status.str == "") [sampleProject] := by
  decide

/-- C7 amended: `applyFilters` keeps exactly the records passing both
predicates, in order: the name predicate (case-insensitive substring,
trivially true when the name filter is empty) and the status predicate
(exact match, trivially true when the status filter is the sentinel `All`
or the empty string — the code treats the falsy empty string like the
sentinel). -/
theorem applyFilters_exactly_matching (f : FilterState) (l : List GeoProject) :
    applyFilters (some f) l
      = l.filter (fun p =>
          ((f.projectName == "")
            || jsIncludes p.projectName.toLower f.projectName.toLower)
          && ((f.status == "") || (f.status == "All")
            || (p.status.str == f.status))) := by
  unfold applyFilters
  rcases eq_or_ne f.projectName "" with hn | hn <;>
    rcases eq_or_ne f.status "" with hs1 | hs1 <;>
      rcases eq_or_ne f.status "All" with hs2 | hs2 <;>
        simp [hn, hs1, hs2, beq_eq_decide, List.filter_filter, Bool.and_comm]

/-! ### C10 — the store is never mutated -/

/-- The response computed by the heap-level `fetchProjects` is the pure
function of the current store content: every array it touches is a fresh
allocation (the spread copy and the filter results) or an in-place sort of
such a fresh array. -/
lemma fetchProjectsHeap_fst (h : Heap) (storeRef : Nat) (pn ps : Int)
    (sf : SortField) (so : SortOrder) (fil : Option FilterState) :
    (fetchProjectsHeap h storeRef pn ps sf so fil).1
      = fetchProjects (h.mem storeRef) pn ps sf so fil := by
  cases fil with
  | none =>
      simp [fetchProjectsHeap, fetchProjects, Heap.alloc, Heap.write,
        applyFilters, sortProjects]
  | some f =>
      by_cases hn : f.projectName ≠ "" <;>
        by_cases hs : f.status ≠ "" ∧ f.status ≠ "All" <;>
          simp [fetchProjectsHeap, fetchProjects, Heap.alloc, Heap.write,
            applyFilters, sortProjects, hn, hs]

/-- The heap after `fetchProjectsHeap` agrees with the heap before on every
reference allocated before the call — in particular on the store. -/
lemma fetchProjectsHeap_mem_preserved (h : Heap) (storeRef : Nat) (pn ps : Int)
    (sf : SortField) (so : SortOrder) (fil : Option FilterState)
    (hv : storeRef < h.next) :
    (fetchProjectsHeap h storeRef pn ps sf so fil).2.mem storeRef
      = h.mem storeRef := by
  cases fil with
  | none =>
      simp [fetchProjectsHeap, Heap.alloc, Heap.write]
      intros
      omega
  | some f =>
      by_cases hn : f.projectName ≠ "" <;>
        by_cases hs : f.status ≠ "" ∧ f.status ≠ "All" <;>
          · simp [fetchProjectsHeap, Heap.alloc, Heap.write, hn, hs]
            all_goals first
              | rfl
              | (split_ifs <;> first | rfl | omega)
              | (intros; omega)

/-- C10: `fetchProjects` never mutates the in-memory store `allProjects`
(`filtered` starts as the spread copy `[...allProjects]`, and only the copy
is filtered and sorted in place); consequently a second call with equal
arguments, run on the heap the first call left behind, returns the same
response. -/
theorem fetchProjects_store_unchanged (h : Heap) (storeRef : Nat) (pn ps : Int)
    (sf : SortField) (so : SortOrder) (fil : Option FilterState)
    (hv : storeRef < h.next) :
    (fetchProjectsHeap h storeRef pn ps sf so fil).2.mem storeRef = h.mem storeRef
    ∧ (fetchProjectsHeap (fetchProjectsHeap h storeRef pn ps sf so fil).2
        storeRef pn ps sf so fil).1
      = (fetchProjectsHeap h storeRef pn ps sf so fil).1 := by
  refine ⟨fetchProjectsHeap_mem_preserved h storeRef pn ps sf so fil hv, ?_⟩
  rw [fetchProjectsHeap_fst, fetchProjectsHeap_fst,
    fetchProjectsHeap_mem_preserved h storeRef pn ps sf so fil hv]

/-- A concrete one-array heap: the store lives at reference 0. -/
def sampleHeap : Heap :=
  { mem := fun _ => [sampleProject], next := 1 }

/-- Witness for C10 on the concrete heap. -/
theorem fetchProjects_store_unchanged_witness :
    0 < sampleHeap.next
    ∧ ((fetchProjectsHeap sampleHeap 0 1 50 .projectName .asc none).2.mem 0
          = sampleHeap.mem 0
        ∧ (fetchProjectsHeap (fetchProjectsHeap sampleHeap 0 1 50 .projectName
              .asc none).2 0 1 50 .projectName .asc none).1
          = (fetchProjectsHeap sampleHeap 0 1 50 .projectName .asc none).1) :=
  ⟨by decide,
    fetchProjects_store_unchanged sampleHeap 0 1 50 .projectName .asc none (by decide)⟩

/-! ### C8 — descending order is the reverse of ascending order -/

/-- Swapping operands negates the lexicographic comparison. -/
lemma compareStr_swap (a : List Char) : ∀ b, compareStr a b = -compareStr b a := by
  induction a with
  | nil => intro b; cases b <;> simp [compareStr]
  | cons x xs ih =>
    intro b
    cases b with
    | nil => simp [compareStr]
    | cons y ys =>
      simp only [compareStr]
      rcases lt_trichotomy x y with h | h | h
      · simp [h, lt_asymm h]
      · simp [h, lt_irrefl, ih]
      · simp [h, lt_asymm h]

/-- A comparison equal to zero means equal lists. -/
lemma compareStr_eq_zero {a b : List Char} (h : compareStr a b = 0) : a = b := by
  induction a generalizing b with
  | nil => cases b with
    | nil => rfl
    | cons y ys => simp [compareStr] at h
  | cons x xs ih =>
    cases b with
    | nil => simp [compareStr] at h
    | cons y ys =>
      rcases lt_trichotomy x y with h1 | h1 | h1
      · simp [compareStr, h1] at h
      · subst h1
        simp only [compareStr, lt_irrefl, if_false, ite_false] at h
        rw [ih h]
      · simp [compareStr, h1, lt_asymm h1] at h

/-- Mutually non-positive comparisons force equality. -/
lemma compareStr_le_antisymm {a b : List Char}
    (h1 : compareStr a b ≤ 0) (h2 : compareStr b a ≤ 0) : a = b := by
  apply compareStr_eq_zero
  have := compareStr_swap a b
  omega

/-- The non-positive-comparison relation is total. -/
lemma compareStr_le_total (a b : List Char) :
    compareStr a b ≤ 0 ∨ compareStr b a ≤ 0 := by
  have := compareStr_swap a b
  omega

/-- The non-positive-comparison relation is transitive. -/
lemma compareStr_le_trans : ∀ (a b c : List Char),
    compareStr a b ≤ 0 → compareStr b c ≤ 0 → compareStr a c ≤ 0 := by
  intro a
  induction a with
  | nil => intro b c _ _; cases c <;> simp [compareStr]
  | cons x xs ih =>
    intro b c h1 h2
    cases b with
    | nil => simp [compareStr] at h1
    | cons y ys =>
      cases c with
      | nil => simp [compareStr] at h2
      | cons z zs =>
        simp only [compareStr] at h1 h2 ⊢
        rcases lt_trichotomy x y with hxy | hxy | hxy
        · rcases lt_trichotomy y z with hyz | hyz | hyz
          · simp [lt_trans hxy hyz]
          · subst hyz; simp [hxy]
          · simp [lt_asymm hyz, hyz] at h2
        · subst hxy
          rcases lt_trichotomy x z with hxz | hxz | hxz
          · simp [hxz]
          · subst hxz
            simp only [lt_irrefl, if_false, ite_false] at h1 h2 ⊢
            exact ih ys zs h1 h2
          · simp [lt_asymm hxz, hxz] at h2
        · simp [lt_asymm hxy, hxy] at h1

/-- The value of a sort field, tagged with its JS runtime type (the
comparator in `mockApi.fetchProjects` branches on `typeof aVal`). -/
inductive FieldVal where
  | str (s : List Char)
  | num (n : Int)
  deriving DecidableEq

/-- Extract the sort-field value of a record. -/
def fieldVal : SortField → GeoProject → FieldVal
  | .id, p => .str p.id.toList
  | .projectName, p => .str p.projectName.toList
  | .latitude, p => .num p.latitude
  | .longitude, p => .num p.longitude
  | .status, p => .str p.status.str.toList
  | .lastUpdated, p => .str p.lastUpdated.toList

/-- Non-positive comparison both ways means equal field values. -/
lemma ascCompare_le_antisymm (sf : SortField) (a b : GeoProject)
    (h1 : ascCompare sf a b ≤ 0) (h2 : ascCompare sf b a ≤ 0) :
    fieldVal sf a = fieldVal sf b := by
  cases sf <;>
    simp only [ascCompare, fieldVal] at h1 h2 ⊢ <;>
      first
        | (rw [compareStr_le_antisymm h1 h2])
        | (congr 1; omega)

/-- The non-positive-comparison relation on records is total. -/
lemma ascCompare_le_total (sf : SortField) (a b : GeoProject) :
    ascCompare sf a b ≤ 0 ∨ ascCompare sf b a ≤ 0 := by
  cases sf <;> simp only [ascCompare] <;>
    first | omega | exact compareStr_le_total _ _

/-- The non-positive-comparison relation on records is transitive. -/
lemma ascCompare_le_trans (sf : SortField) (a b c : GeoProject)
    (h1 : ascCompare sf a b ≤ 0) (h2 : ascCompare sf b c ≤ 0) :
    ascCompare sf a c ≤ 0 := by
  cases sf <;> simp only [ascCompare] at h1 h2 ⊢ <;>
    first | omega | exact compareStr_le_trans _ _ _ h1 h2

/-- A sorted permutation is unique once the order is antisymmetric on the
members of the list. -/
lemma eq_of_perm_of_pairwise {α : Type} {r : α → α → Prop} :
    ∀ (l₁ l₂ : List α), l₁.Perm l₂ → l₁.Pairwise r → l₂.Pairwise r →
      (∀ a ∈ l₁, ∀ b ∈ l₁, r a b → r b a → a = b) → l₁ = l₂ := by
  intro l₁
  induction l₁ with
  | nil =>
    intro l₂ hp _ _ _
    have := hp.length_eq
    cases l₂ with
    | nil => rfl
    | cons b t₂ => simp at this
  | cons a t ih =>
    intro l₂ hp h1 h2 hanti
    cases l₂ with
    | nil => have := hp.length_eq; simp at this
    | cons b t₂ =>
      have hab : a = b := by
        by_contra hne
        have hbmem : b ∈ a :: t := hp.symm.subset (List.mem_cons_self b t₂)
        have hbt : b ∈ t := by
          cases List.mem_cons.mp hbmem with
          | inl h => exact absurd h.symm hne
          | inr h => exact h
        have hamem : a ∈ b :: t₂ := hp.subset (List.mem_cons_self a t)
        have hat : a ∈ t₂ := by
          cases List.mem_cons.mp hamem with
          | inl h => exact absurd h hne
          | inr h => exact h
        have hrab : r a b := List.rel_of_pairwise_cons h1 hbt
        have hrba : r b a := List.rel_of_pairwise_cons h2 hat
        exact hne (hanti a (List.mem_cons_self a t) b hbmem hrab hrba)
      subst hab
      have htp := hp.cons_inv
      rw [ih t₂ htp h1.tail h2.tail
        (fun x hx y hy => hanti x (List.mem_cons_of_mem a hx) y (List.mem_cons_of_mem a hy))]

/-- C8: when the values of the chosen sort field are pairwise distinct, the
full descending ordering produced by the sort stage of `fetchProjects` is
exactly the reverse of the ascending ordering. -/
theorem sortProjects_desc_reverse (sf : SortField) (l : List GeoProject)
    (hdist : l.Pairwise (fun a b => fieldVal sf a ≠ fieldVal sf b)) :
    sortProjects sf .desc l = (sortProjects sf .asc l).reverse := by
  show l.mergeSort (fun a b => decide (ascCompare sf b a ≤ 0))
      = (l.mergeSort (fun a b => decide (ascCompare sf a b ≤ 0))).reverse
  have hsym : Symmetric (fun a b : GeoProject => fieldVal sf a ≠ fieldVal sf b) :=
    fun a b hab h => hab h.symm
  have hforall := hdist.forall hsym
  have pD := @List.sorted_mergeSort GeoProject
    (fun a b => decide (ascCompare sf b a ≤ 0))
    (fun a b c hab hbc => by
      simp only [decide_eq_true_eq] at *
      exact ascCompare_le_trans sf c b a hbc hab)
    (fun a b => by
      rcases ascCompare_le_total sf b a with h | h <;> simp [h]) l
  have pA := @List.sorted_mergeSort GeoProject
    (fun a b => decide (ascCompare sf a b ≤ 0))
    (fun a b c hab hbc => by
      simp only [decide_eq_true_eq] at *
      exact ascCompare_le_trans sf a b c hab hbc)
    (fun a b => by
      rcases ascCompare_le_total sf a b with h | h <;> simp [h]) l
  have pD2 : (l.mergeSort (fun a b => decide (ascCompare sf b a ≤ 0))).Pairwise
      (fun a b => ascCompare sf b a ≤ 0) :=
    pD.imp (fun h => of_decide_eq_true h)
  have pA2 : (l.mergeSort (fun a b => decide (ascCompare sf a b ≤ 0))).reverse.Pairwise
      (fun a b => ascCompare sf b a ≤ 0) :=
    List.pairwise_reverse.mpr ((pA.imp (fun h => of_decide_eq_true h)))
  have hp : (l.mergeSort (fun a b => decide (ascCompare sf b a ≤ 0))).Perm
      ((l.mergeSort (fun a b => decide (ascCompare sf a b ≤ 0))).reverse) :=
    (List.mergeSort_perm l _).trans
      ((List.reverse_perm _).trans (List.mergeSort_perm l _)).symm
  refine eq_of_perm_of_pairwise _ _ hp pD2 pA2 ?_
  intro a ha b hb h1 h2
  by_contra hne
  exact hforall ((List.mergeSort_perm l _).subset ha)
    ((List.mergeSort_perm l _).subset hb) hne
    (ascCompare_le_antisymm sf a b h2 h1)

/-- Witness for C8 on two records with distinct names. -/
theorem sortProjects_desc_reverse_witness :
    List.Pairwise
        (fun a b => fieldVal .projectName a ≠ fieldVal .projectName b)
        [sampleProject, sampleProject2]
    ∧ sortProjects .projectName .desc [sampleProject, sampleProject2]
        = (sortProjects .projectName .asc [sampleProject, sampleProject2]).reverse :=
  ⟨by decide,
    sortProjects_desc_reverse .projectName [sampleProject, sampleProject2] (by decide)⟩
